import Mathlib

/-!
Verification of the StoryLofts backend Content & Upload Lifecycle Store.

The definitions below are a shallow embedding of the TypeScript source:

* `src/services/database.ts` (DatabaseService): content CRUD, tag management,
  listing/search query construction, view tracking.
* The SQL schema and triggers embedded in `src/services/backblaze.ts`
  (tables `video_content`, `tags`, `video_tags`, `video_views`,
  `upload_sessions`, and the `update_tag_usage_count` trigger on `video_tags`).
* `src/schemas/index.ts` (zod `paginationSchema`).
* `src/routes/content.ts` (GET /api/content/:id view tracking) and the
  `POST /api/upload/complete` handler of `src/routes/upload.ts`.

Machine integers are modelled as `Nat`/`Int`; SQL rows are Lean structures;
tables are lists of rows; a transaction body is a `Except`-valued function and
the `BEGIN`/`COMMIT`/`ROLLBACK` wrapper returns the original state on error.
Failure injection for transactional claims is explicit: a `FailOracle` says
which primitive statement fails.
-/

/-- Lifecycle status enum of `video_content.status`:
`uploading | processing | ready | failed`. -/
inductive VideoStatus where
  | uploading
  | processing
  | ready
  | failed
deriving DecidableEq, Repr

/-- Visibility enum of `video_content.visibility`.  `pub`, `priv`, `unlisted`
stand for the SQL values `public`, `private`, `unlisted` (the first two are
Lean keywords). -/
inductive VideoVisibility where
  | pub
  | priv
  | unlisted
deriving DecidableEq, Repr

/-- One step of the JS regex `/\s+/g → '-'` replacement: a run of whitespace
characters becomes a single dash.  The boolean argument records whether the
previous character was whitespace (already replaced). -/
def collapseWs : Bool → List Char → List Char
  | _, [] => []
  | prevWs, c :: cs =>
    if c.isWhitespace then
      if prevWs then collapseWs true cs else '-' :: collapseWs true cs
    else c :: collapseWs false cs

/-- Characters kept by the JS regex `/[^a-z0-9-]/g → ''`. -/
def isSlugChar (c : Char) : Bool :=
  ('a' ≤ c && c ≤ 'z') || ('0' ≤ c && c ≤ '9') || c = '-'

/-- The slug derivation used by `createTag` and `createTagWithClient`:
`name.toLowerCase().replace(/\s+/g, '-').replace(/[^a-z0-9-]/g, '')`. -/
def slugify (name : String) : String :=
  String.mk ((collapseWs false (name.toList.map Char.toLower)).filter isSlugChar)

/-- JS `parseInt(val, 10)`: skip leading whitespace, optional sign, then the
leading run of decimal digits; `none` models `NaN`. -/
def parseIntJS (s : String) : Option Int :=
  let cs := s.toList.dropWhile (·.isWhitespace)
  let digitsVal : List Char → Option Nat := fun l =>
    let ds := l.takeWhile (·.isDigit)
    if ds.isEmpty then none
    else some (ds.foldl (fun a c => a * 10 + (c.toNat - 48)) 0)
  match cs with
  | '-' :: rest => (digitsVal rest).map (fun n => -(n : Int))
  | '+' :: rest => (digitsVal rest).map (fun n => (n : Int))
  | _ => (digitsVal cs).map (fun n => (n : Int))

/-- JS `x || d` applied to the result of `parseInt`: `NaN` (`none`) and `0`
are falsy and fall back to the default. -/
def jsOrDefault (v : Option Int) (d : Int) : Int :=
  match v with
  | none => d
  | some 0 => d
  | some n => n

/-- `paginationSchema.page` transform from `src/schemas/index.ts`:
`Math.max(1, parseInt(val, 10) || 1)`. -/
def pageTransform (val : String) : Int :=
  max 1 (jsOrDefault (parseIntJS val) 1)

/-- `paginationSchema.limit` transform from `src/schemas/index.ts`:
`Math.min(100, Math.max(1, parseInt(val, 10) || 20))`. -/
def limitTransform (val : String) : Int :=
  min 100 (max 1 (jsOrDefault (parseIntJS val) 20))

/-- A row of the `tags` table (`id`, unique `name`, unique `slug`, `color`,
`description`, denormalized `usage_count`).  Ids are abstracted as `Nat`
(the source uses UUIDs, generated fresh by the database). -/
structure TagRow where
  id : Nat
  name : String
  slug : String
  color : String
  description : Option String
  usageCount : Nat
deriving DecidableEq, Repr

/-- A row of the `video_tags` association table (`video_id`, `tag_id`). -/
structure VideoTagRow where
  videoId : Nat
  tagId : Nat
deriving DecidableEq, Repr

/-- A row of the `video_content` table (the columns relevant to the claims). -/
structure ContentRow where
  id : Nat
  userId : String
  title : String
  description : Option String
  filename : String
  fileSize : Nat
  videoUrl : String
  status : VideoStatus
  visibility : VideoVisibility
  createdAt : Nat
  updatedAt : Nat
deriving DecidableEq, Repr

/-- A row of the `video_views` analytics table (relevant columns). -/
structure VideoViewRow where
  videoId : Nat
  viewerUserId : Option String
deriving DecidableEq, Repr

/-- A row of the `upload_sessions` table (relevant columns). -/
structure UploadSessionRow where
  sessionId : Nat
  userId : String
  filename : String
  fileSize : Option Nat
  mimeType : Option String
  expiresAt : Nat
deriving DecidableEq, Repr

/-- The relational store: one list per table, plus counters supplying the
fresh ids that `uuid_generate_v4()` produces in the source schema. -/
structure DBState where
  contents : List ContentRow
  tags : List TagRow
  videoTags : List VideoTagRow
  views : List VideoViewRow
  sessions : List UploadSessionRow
  tagCounter : Nat
  contentCounter : Nat
deriving DecidableEq, Repr

/-- `INSERT` branch of the `update_tag_usage_count` trigger
(schema in `src/services/backblaze.ts`):
`UPDATE tags SET usage_count = usage_count + 1 WHERE id = NEW.tag_id`. -/
def updateTagUsageOnInsert (tags : List TagRow) (tid : Nat) : List TagRow :=
  tags.map fun t => if t.id = tid then { t with usageCount := t.usageCount + 1 } else t

/-- `DELETE` branch of the `update_tag_usage_count` trigger:
`UPDATE tags SET usage_count = GREATEST(usage_count - 1, 0) WHERE id = OLD.tag_id`
(the `GREATEST` clamp is exactly truncated `Nat` subtraction). -/
def updateTagUsageOnDelete (tags : List TagRow) (tid : Nat) : List TagRow :=
  tags.map fun t => if t.id = tid then { t with usageCount := t.usageCount - 1 } else t

/-- `INSERT INTO video_tags (video_id, tag_id) VALUES ($1, $2)` together with
the row-level `update_tag_usage_count` trigger it fires. -/
def insertVideoTagRow (st : DBState) (vid tid : Nat) : DBState :=
  { st with
    videoTags := st.videoTags ++ [⟨vid, tid⟩]
    tags := updateTagUsageOnInsert st.tags tid }

/-- `DELETE FROM video_tags WHERE video_id = $1` together with the row-level
`update_tag_usage_count` trigger firing once per deleted row.  Also reached
as `ON DELETE CASCADE` when a `video_content` row is deleted. -/
def deleteVideoTagsFor (st : DBState) (vid : Nat) : DBState :=
  { st with
    videoTags := st.videoTags.filter (fun r => !decide (r.videoId = vid))
    tags := (st.videoTags.filter (fun r => decide (r.videoId = vid))).foldl
      (fun ts r => updateTagUsageOnDelete ts r.tagId) st.tags }

/-- `DatabaseService.createTagWithClient`:
`INSERT INTO tags (name, slug, color) VALUES ($1, $2, $3) ON CONFLICT (slug) DO NOTHING`
with `slug` derived by `slugify` and the default color `#6b7280`. -/
def createTagWithClient (st : DBState) (name : String) : DBState :=
  let slug := slugify name
  if st.tags.any (fun t => decide (t.slug = slug)) then st
  else
    { st with
      tags := st.tags ++ [⟨st.tagCounter, name, slug, "#6b7280", none, 0⟩]
      tagCounter := st.tagCounter + 1 }

/-- `DatabaseService.createTag(name, color?, description?)`: the same
slug-keyed `ON CONFLICT (slug) DO NOTHING` insert, with optional color
(default `#6b7280`) and description. -/
def createTag (st : DBState) (name : String) (color : Option String)
    (description : Option String) : DBState :=
  let slug := slugify name
  if st.tags.any (fun t => decide (t.slug = slug)) then st
  else
    { st with
      tags := st.tags ++ [⟨st.tagCounter, name, slug, color.getD ("#6b7280"), description, 0⟩]
      tagCounter := st.tagCounter + 1 }

/-- `DatabaseService.getTags`: `SELECT ... FROM tags ORDER BY usage_count DESC,
name ASC` (modelled as the stored rows; ordering is irrelevant to the claims). -/
def getTags (st : DBState) : List TagRow :=
  st.tags

/-- Failure injection for transactional claims: each field decides whether the
corresponding primitive SQL statement of a `create`/`update` operation throws.
`noFailOracle` is the run in which the database reports no error. -/
structure FailOracle where
  contentWriteFail : Bool
  vtDeleteFail : Bool
  ensureTagFailOn : String → Bool
  tagSelectFail : Bool
  vtInsertFailOn : Nat → Bool
  commitFail : Bool

/-- The oracle of a run without database errors. -/
def noFailOracle : FailOracle :=
  { contentWriteFail := false
    vtDeleteFail := false
    ensureTagFailOn := fun _ => false
    tagSelectFail := false
    vtInsertFailOn := fun _ => false
    commitFail := false }

/-- `DatabaseService.updateVideoTags(client, videoId, tags)` run on the open
transaction, with injected failures: delete the existing `video_tags` rows,
return if the tag list is empty, ensure each tag exists
(`createTagWithClient`), `SELECT id FROM tags WHERE name = ANY($1)`, and
insert one association row per matching tag (each insert firing the usage
trigger).  An `error` models a thrown query error. -/
def updateVideoTagsE (fo : FailOracle) (st : DBState) (vid : Nat)
    (names : List String) : Except Unit DBState :=
  if fo.vtDeleteFail then .error () else
  let st1 := deleteVideoTagsFor st vid
  if names.isEmpty then .ok st1 else
  match names.foldlM
      (fun s n => if fo.ensureTagFailOn n then .error ()
                  else Except.ok (createTagWithClient s n)) st1 with
  | .error e => .error e
  | .ok st2 =>
    if fo.tagSelectFail then .error () else
    let matched := st2.tags.filter (fun t => names.contains t.name)
    matched.foldlM
      (fun s t => if fo.vtInsertFailOn t.id then .error ()
                  else Except.ok (insertVideoTagRow s vid t.id)) st2

/-- The failure-free effect of `DatabaseService.updateVideoTags`. -/
def updateVideoTags (st : DBState) (vid : Nat) (names : List String) : DBState :=
  let st1 := deleteVideoTagsFor st vid
  if names.isEmpty then st1 else
  let st2 := names.foldl createTagWithClient st1
  let matched := st2.tags.filter (fun t => names.contains t.name)
  matched.foldl (fun s t => insertVideoTagRow s vid t.id) st2

/-- `VideoContentInput`, the argument of `DatabaseService.createVideoContent`. -/
structure VideoContentInput where
  userId : String
  title : String
  description : Option String
  filename : String
  fileSize : Nat
  videoUrl : String
  status : Option VideoStatus
  visibility : Option VideoVisibility
  tags : Option (List String)
deriving Repr

/-- The `video_content` row inserted by `createVideoContent`, with the source
defaults `status || 'uploading'` and `visibility || 'private'` and the
database-generated id and timestamps. -/
def mkContentRow (id : Nat) (inp : VideoContentInput) (now : Nat) : ContentRow :=
  { id := id
    userId := inp.userId
    title := inp.title
    description := inp.description
    filename := inp.filename
    fileSize := inp.fileSize
    videoUrl := inp.videoUrl
    status := inp.status.getD .uploading
    visibility := inp.visibility.getD .priv
    createdAt := now
    updatedAt := now }

/-- Errors a transaction body can raise: a database error (rolled back and
rethrown) or the no-matching-row case of `update` (rolled back, `null`). -/
inductive UpdErr where
  | dbError
  | rowMissing
deriving DecidableEq, Repr

/-- Transaction body of `DatabaseService.createVideoContent`: `INSERT INTO
video_content ... RETURNING *`, then `updateVideoTags` when `content.tags`
is present and non-empty, then `COMMIT`. -/
def createVideoContentE (fo : FailOracle) (st : DBState) (inp : VideoContentInput)
    (now : Nat) : Except UpdErr DBState :=
  if fo.contentWriteFail then .error .dbError else
  let st1 : DBState :=
    { st with
      contents := st.contents ++ [mkContentRow st.contentCounter inp now]
      contentCounter := st.contentCounter + 1 }
  let afterTags : Except Unit DBState :=
    match inp.tags with
    | some names => if names.isEmpty then .ok st1
                    else updateVideoTagsE fo st1 st.contentCounter names
    | none => .ok st1
  match afterTags with
  | .error _ => .error .dbError
  | .ok st2 => if fo.commitFail then .error .dbError else .ok st2

/-- Result of `createVideoContent`: the created record id, or a thrown error. -/
inductive CreateResult where
  | ok (videoId : Nat)
  | errored
deriving DecidableEq, Repr

/-- `DatabaseService.createVideoContent` with its `BEGIN`/`COMMIT`/`ROLLBACK`
wrapper: on any error the transaction rolls back and the store is unchanged. -/
def createVideoContent (fo : FailOracle) (st : DBState) (inp : VideoContentInput)
    (now : Nat) : CreateResult × DBState :=
  match createVideoContentE fo st inp now with
  | .ok st' => (.ok st.contentCounter, st')
  | .error _ => (.errored, st)

/-- `Partial<VideoContentInput>` as passed to `updateVideoContent`
(the fields modelled here; a `none` field is absent from the update). -/
structure UpdateInput where
  title : Option String
  description : Option String
  status : Option VideoStatus
  visibility : Option VideoVisibility
  tags : Option (List String)
deriving Repr

/-- Whether the dynamic `SET` clause of `updateVideoContent` is non-empty
(some non-`tags` field was supplied). -/
def hasFieldUpdates (u : UpdateInput) : Bool :=
  u.title.isSome || u.description.isSome || u.status.isSome || u.visibility.isSome

/-- Application of the supplied non-`tags` fields plus
`updated_at = CURRENT_TIMESTAMP` to a matching row. -/
def applyFieldUpdates (r : ContentRow) (u : UpdateInput) (now : Nat) : ContentRow :=
  { r with
    title := u.title.getD r.title
    description := match u.description with | some d => some d | none => r.description
    status := u.status.getD r.status
    visibility := u.visibility.getD r.visibility
    updatedAt := now }

/-- Transaction body of `DatabaseService.updateVideoContent`: the dynamic
`UPDATE video_content ... WHERE id = $i AND user_id = $j RETURNING *` (when
some non-`tags` field is supplied; zero returned rows aborts with `null`),
then `updateVideoTags` when `updates.tags` is supplied, then `COMMIT`. -/
def updateVideoContentE (fo : FailOracle) (st : DBState) (id : Nat) (userId : String)
    (u : UpdateInput) (now : Nat) : Except UpdErr DBState :=
  let step1 : Except UpdErr DBState :=
    if hasFieldUpdates u then
      if fo.contentWriteFail then .error .dbError
      else if st.contents.any (fun r => decide (r.id = id) && decide (r.userId = userId)) then
        .ok { st with
              contents := st.contents.map fun r =>
                if decide (r.id = id) && decide (r.userId = userId)
                then applyFieldUpdates r u now else r }
      else .error .rowMissing
    else .ok st
  match step1 with
  | .error e => .error e
  | .ok st1 =>
    match u.tags with
    | none => if fo.commitFail then .error .dbError else .ok st1
    | some names =>
      match updateVideoTagsE fo st1 id names with
      | .error _ => .error .dbError
      | .ok st2 => if fo.commitFail then .error .dbError else .ok st2

/-- Result of `updateVideoContent`: success, `null` (no matching row), or a
thrown error. -/
inductive UpdResult where
  | ok
  | notFound
  | errored
deriving DecidableEq, Repr

/-- `DatabaseService.updateVideoContent` with its transaction wrapper.  The
source first short-circuits when the update supplies neither fields nor
`tags` (`ROLLBACK` of an empty transaction, current state returned). -/
def updateVideoContent (fo : FailOracle) (st : DBState) (id : Nat) (userId : String)
    (u : UpdateInput) (now : Nat) : UpdResult × DBState :=
  if !hasFieldUpdates u && u.tags.isNone then (.ok, st)
  else
    match updateVideoContentE fo st id userId u now with
    | .ok st' => (.ok, st')
    | .error .rowMissing => (.notFound, st)
    | .error .dbError => (.errored, st)

/-- The failure-free effect of `updateVideoContent`, written out directly:
the supplied fields applied to the owned row and the tag set replaced.
`updateVideoContent noFailOracle` is proved equal to this function. -/
def updateVideoContentPure (st : DBState) (id : Nat) (userId : String)
    (u : UpdateInput) (now : Nat) : UpdResult × DBState :=
  if !hasFieldUpdates u && u.tags.isNone then (.ok, st)
  else if hasFieldUpdates u
       && !(st.contents.any (fun r => decide (r.id = id) && decide (r.userId = userId)))
  then (.notFound, st)
  else
    let st1 : DBState :=
      if hasFieldUpdates u then
        { st with
          contents := st.contents.map fun r =>
            if decide (r.id = id) && decide (r.userId = userId)
            then applyFieldUpdates r u now else r }
      else st
    match u.tags with
    | none => (.ok, st1)
    | some names => (.ok, updateVideoTags st1 id names)

/-- `DatabaseService.deleteVideoContent`: `DELETE FROM video_content WHERE
id = $1 AND user_id = $2 RETURNING id`, with the schema cascades removing the
`video_tags` rows (firing the usage trigger per row) and the `video_views`
rows of the deleted record; returns whether a row was deleted. -/
def deleteVideoContent (st : DBState) (id : Nat) (userId : String) : Bool × DBState :=
  if st.contents.any (fun r => decide (r.id = id) && decide (r.userId = userId)) then
    let st1 := deleteVideoTagsFor st id
    (true,
      { st1 with
        contents := st1.contents.filter
          (fun r => !(decide (r.id = id) && decide (r.userId = userId)))
        views := st1.views.filter (fun v => !decide (v.videoId = id)) })
  else (false, st)

/-- One Content Repository operation, with its failure oracle and the clock
value at which it runs. -/
inductive RepoOp where
  | create (fo : FailOracle) (inp : VideoContentInput) (now : Nat)
  | update (fo : FailOracle) (id : Nat) (userId : String) (u : UpdateInput) (now : Nat)
  | delete (id : Nat) (userId : String)

/-- Effect of one Content Repository operation on the store. -/
def applyRepoOp (st : DBState) : RepoOp → DBState
  | .create fo inp now => (createVideoContent fo st inp now).2
  | .update fo id userId u now => (updateVideoContent fo st id userId u now).2
  | .delete id userId => (deleteVideoContent st id userId).2

/-- The number of live `video_tags` associations referencing a tag id. -/
def liveCount (videoTags : List VideoTagRow) (tid : Nat) : Nat :=
  (videoTags.filter (fun r => decide (r.tagId = tid))).length

/-- Spec §3 invariant: every usage count equals the live association count. -/
def tagConsistent (st : DBState) : Prop :=
  ∀ t ∈ st.tags, t.usageCount = liveCount st.videoTags t.id

/-- Well-formedness delivered by the database: every tag id, and every tag id
referenced from `video_tags`, was produced by the id supply. -/
def dbWF (st : DBState) : Prop :=
  (∀ t ∈ st.tags, t.id < st.tagCounter) ∧ (∀ r ∈ st.videoTags, r.tagId < st.tagCounter)

/-- `Math.ceil(total / limit)` on naturals (`limit ≥ 1` in every validated
request); proved below to agree with the rational ceiling. -/
def ceilDiv (total limit : Nat) : Nat :=
  (total + limit - 1) / limit

/-- A row as seen by the listing/search queries: the `video_content` columns
joined with the names of the associated tags
(`LEFT JOIN video_tags ... LEFT JOIN tags ... GROUP BY vc.id`). -/
structure QRow where
  id : Nat
  userId : String
  title : String
  description : Option String
  status : VideoStatus
  visibility : VideoVisibility
  tags : List String
  duration : Option Int
  fileSize : Int
  createdAt : Int
  updatedAt : Int
deriving DecidableEq, Repr

/-- `sortBy` enum of `videoQuerySchema`:
`created_at | updated_at | title | duration | file_size`. -/
inductive SortField where
  | created_at
  | updated_at
  | title
  | duration
  | file_size
deriving DecidableEq, Repr

/-- `sortOrder` enum of `videoQuerySchema`: `asc | desc`. -/
inductive SortOrder where
  | asc
  | desc
deriving DecidableEq, Repr

/-- `VideoListOptions` of `listVideoContent` (absent members are `none`). -/
structure VideoListOptions where
  page : Option Nat
  limit : Option Nat
  status : Option VideoStatus
  visibility : Option VideoVisibility
  tags : Option (List String)
  search : Option String
  sortBy : Option SortField
  sortOrder : Option SortOrder
deriving Repr

/-- `SearchOptions` of `searchVideoContent`. -/
structure SearchOptions where
  query : String
  page : Option Nat
  limit : Option Nat
  visibility : Option VideoVisibility
  minDuration : Option Int
  maxDuration : Option Int
  tags : Option (List String)
deriving Repr

/-- The visible set as the spec words it: a row is visible to a caller when
it is public or the caller is its owner. -/
def visibleTo (userId : Option String) (r : QRow) : Bool :=
  decide (r.visibility = VideoVisibility.pub) ||
    (match userId with
     | some u => decide (r.userId = u)
     | none => false)

/-- The `WHERE` clause built by `DatabaseService.listVideoContent`, applied to
one joined row.  `tm` abstracts the text-match disjunction (`to_tsvector ...
@@ plainto_tsquery` / `ILIKE`); the claims hold for every `tm`.  Note the user
filter: an authenticated request is scoped to `vc.user_id = $1`, an anonymous
one to `vc.visibility = 'public'`.  A supplied empty `tags` array or empty
`search` string adds no condition (source: `if (tags && tags.length > 0)`,
`if (search)`). -/
def matchesListFilters (tm : String → QRow → Bool) (userId : Option String)
    (o : VideoListOptions) (r : QRow) : Bool :=
  (match userId with
   | some u => decide (r.userId = u)
   | none => decide (r.visibility = VideoVisibility.pub)) &&
  (match o.status with
   | some s => decide (r.status = s)
   | none => true) &&
  (match o.visibility with
   | some v => decide (r.visibility = v)
   | none => true) &&
  (match o.tags with
   | some ts => if ts.isEmpty then true else r.tags.any (fun n => ts.contains n)
   | none => true) &&
  (match o.search with
   | some q => if q.isEmpty then true else tm q r
   | none => true)

/-- The `WHERE` clause built by `DatabaseService.searchVideoContent`: the
text-match condition is always present; access control is
`(vc.visibility = 'public' OR vc.user_id = $i)` for an authenticated caller
and `vc.visibility = 'public'` otherwise; then the optional filters.  A SQL
comparison with a `NULL` duration is not satisfied. -/
def matchesSearchFilters (tm : String → QRow → Bool) (userId : Option String)
    (o : SearchOptions) (r : QRow) : Bool :=
  tm o.query r &&
  (match userId with
   | some u => decide (r.visibility = VideoVisibility.pub) || decide (r.userId = u)
   | none => decide (r.visibility = VideoVisibility.pub)) &&
  (match o.visibility with
   | some v => decide (r.visibility = v)
   | none => true) &&
  (match o.minDuration with
   | some d => match r.duration with
               | some x => decide (d ≤ x)
               | none => false
   | none => true) &&
  (match o.maxDuration with
   | some d => match r.duration with
               | some x => decide (x ≤ d)
               | none => false
   | none => true) &&
  (match o.tags with
   | some ts => if ts.isEmpty then true else r.tags.any (fun n => ts.contains n)
   | none => true)

/-- The request predicate of a search as the spec words it — the text match
and the optional filters, without the mandatory access-control clause.  Used
to state that the search result set is exactly the visible rows matching the
request. -/
def matchesSearchRequest (tm : String → QRow → Bool) (o : SearchOptions)
    (r : QRow) : Bool :=
  tm o.query r &&
  (match o.visibility with
   | some v => decide (r.visibility = v)
   | none => true) &&
  (match o.minDuration with
   | some d => match r.duration with
               | some x => decide (d ≤ x)
               | none => false
   | none => true) &&
  (match o.maxDuration with
   | some d => match r.duration with
               | some x => decide (x ≤ d)
               | none => false
   | none => true) &&
  (match o.tags with
   | some ts => if ts.isEmpty then true else r.tags.any (fun n => ts.contains n)
   | none => true)

/-- Comparison on `Option Int` sort keys with `NULL` largest, matching SQL
default null ordering for `ASC` (`NULLS LAST`); the `DESC` comparison below
swaps the arguments, giving `NULLS FIRST`. -/
def optIntLe (a b : Option Int) : Bool :=
  match a, b with
  | none, none => true
  | none, some _ => false
  | some _, none => true
  | some x, some y => decide (x ≤ y)

/-- The numeric sort key of `ORDER BY vc.<sortBy>` (the `title` field is
compared as a string and handled separately). -/
def sortKey (f : SortField) (r : QRow) : Option Int :=
  match f with
  | .created_at => some r.createdAt
  | .updated_at => some r.updatedAt
  | .file_size => some r.fileSize
  | .duration => r.duration
  | .title => none

/-- The row comparison realizing `ORDER BY vc.<sortBy> <sortOrder>`. -/
def rowLe (f : SortField) (ord : SortOrder) (a b : QRow) : Bool :=
  match f with
  | .title =>
    match ord with
    | .asc => decide (a.title ≤ b.title)
    | .desc => decide (b.title ≤ a.title)
  | _ =>
    match ord with
    | .asc => optIntLe (sortKey f a) (sortKey f b)
    | .desc => optIntLe (sortKey f b) (sortKey f a)

/-- Insertion into a sorted list (used to realize `ORDER BY`). -/
def insertSorted (le : α → α → Bool) (x : α) : List α → List α
  | [] => [x]
  | y :: ys => if le x y then x :: y :: ys else y :: insertSorted le x ys

/-- Insertion sort realizing the `ORDER BY` clause of the data query. -/
def sortByLe (le : α → α → Bool) (l : List α) : List α :=
  l.foldr (insertSorted le) []

/-- The comparison of the search data query:
`ORDER BY relevance_score DESC, vc.created_at DESC`, with `rank` abstracting
`ts_rank`. -/
def searchLe (rank : String → QRow → Int) (q : String) (a b : QRow) : Bool :=
  if rank q a = rank q b then decide (b.createdAt ≤ a.createdAt)
  else decide (rank q b ≤ rank q a)

/-- The `PaginatedResponse` shape returned by the listing and search paths. -/
structure Paginated where
  items : List QRow
  page : Nat
  limit : Nat
  total : Nat
  totalPages : Nat
  hasNext : Bool
  hasPrev : Bool
deriving DecidableEq, Repr

/-- `DatabaseService.listVideoContent(userId?, options)`: defaults
`page = 1`, `limit = 20`, `sortBy = 'created_at'`, `sortOrder = 'desc'`;
`offset = (page - 1) * limit`; a count query over the matching rows and a
data query sorted, offset and limited; pagination metadata
`totalPages = Math.ceil(total / limit)`, `hasNext = page * limit < total`,
`hasPrev = page > 1`. -/
def listVideoContent (tm : String → QRow → Bool) (userId : Option String)
    (o : VideoListOptions) (rows : List QRow) : Paginated :=
  let page := o.page.getD 1
  let limit := o.limit.getD 20
  let offset := (page - 1) * limit
  let matched := rows.filter (matchesListFilters tm userId o)
  let total := matched.length
  let sorted := sortByLe (rowLe (o.sortBy.getD .created_at) (o.sortOrder.getD .desc)) matched
  { items := (sorted.drop offset).take limit
    page := page
    limit := limit
    total := total
    totalPages := ceilDiv total limit
    hasNext := decide (page * limit < total)
    hasPrev := decide (1 < page) }

/-- `DatabaseService.searchVideoContent(userId?, options)`: the same count and
page structure over `matchesSearchFilters`, ordered by relevance. -/
def searchVideoContent (tm : String → QRow → Bool) (rank : String → QRow → Int)
    (userId : Option String) (o : SearchOptions) (rows : List QRow) : Paginated :=
  let page := o.page.getD 1
  let limit := o.limit.getD 20
  let offset := (page - 1) * limit
  let matched := rows.filter (matchesSearchFilters tm userId o)
  let total := matched.length
  let sorted := sortByLe (searchLe rank o.query) matched
  { items := (sorted.drop offset).take limit
    page := page
    limit := limit
    total := total
    totalPages := ceilDiv total limit
    hasNext := decide (page * limit < total)
    hasPrev := decide (1 < page) }

/-- `DatabaseService.getVideoContent(id, userId?)`: `SELECT ... WHERE vc.id = $1`
plus `AND (vc.visibility = 'public' OR vc.user_id = $2)` for an authenticated
caller, or `AND vc.visibility = 'public'` for an anonymous one; `null` when no
row qualifies. -/
def getVideoContent (rows : List QRow) (id : Nat) (userId : Option String) : Option QRow :=
  rows.find? fun r =>
    decide (r.id = id) &&
    (decide (r.visibility = VideoVisibility.pub) ||
      (match userId with
       | some u => decide (r.userId = u)
       | none => false))

/-- The argument of `DatabaseService.trackVideoView`. -/
structure VideoViewData where
  videoId : Nat
  viewerUserId : Option String
deriving DecidableEq, Repr

/-- `DatabaseService.trackVideoView`: `INSERT INTO video_views ...` inside a
`try`/`catch` whose handler only logs — a failing insert leaves the table
unchanged and the function still returns normally (source comment: view
tracking must not break the app).  `insertFails` injects the insert failure. -/
def trackVideoView (insertFails : Bool) (views : List VideoViewRow)
    (v : VideoViewData) : List VideoViewRow :=
  if insertFails then views
  else views ++ [⟨v.videoId, v.viewerUserId⟩]

/-- Outcome of `GET /api/content/:id` as far as the claims are concerned. -/
inductive GetContentOutcome where
  | ok (c : QRow)
  | notFound
deriving DecidableEq, Repr

/-- The `GET /api/content/:id` handler of `src/routes/content.ts`: fetch via
`getVideoContent` (404 on `null`); when the record is public or the caller is
authenticated, record a view via `trackVideoView` inside a `try`/`catch` that
only warns; respond with the record. -/
def getContentById (insertFails : Bool) (rows : List QRow) (views : List VideoViewRow)
    (id : Nat) (userId : Option String) : GetContentOutcome × List VideoViewRow :=
  match getVideoContent rows id userId with
  | none => (.notFound, views)
  | some c =>
    let views' :=
      if decide (c.visibility = VideoVisibility.pub) || userId.isSome then
        trackVideoView insertFails views ⟨id, userId⟩
      else views
    (.ok c, views')

/-- Modelled from the spec: `db.getUploadSession(fileName, userId)` is called
by the upload-complete handler but the upload-session store is not part of
the database service under `src`; per spec §4.3 the lookup verifies the
session belongs to the caller and has not expired, and an expired session is
treated as not found. -/
def getUploadSession (sessions : List UploadSessionRow) (fileName userId : String)
    (now : Nat) : Option UploadSessionRow :=
  sessions.find? fun s =>
    decide (s.filename = fileName) && decide (s.userId = userId) &&
      decide (now < s.expiresAt)

/-- Modelled from the spec: `db.deleteUploadSession(sessionId)` removes the
session row — spec §3: once completed, the session is deleted, not retained. -/
def deleteUploadSession (sessions : List UploadSessionRow) (sid : Nat) :
    List UploadSessionRow :=
  sessions.filter (fun s => !decide (s.sessionId = sid))

/-- The request body of `POST /api/upload/complete` (modelled fields). -/
structure CompleteUploadRequest where
  userId : String
  fileName : String
  title : String
  description : Option String
  visibility : Option VideoVisibility
  tags : Option (List String)
  fileSize : Option Nat
  mimeType : Option String
deriving Repr

/-- The HTTP outcome of `POST /api/upload/complete`: `201` with the created
record, `404` (session not found or expired), `409` (the `duplicate` error
branch), or `500`. -/
inductive CompleteUploadResult where
  | created (videoId : Nat)
  | notFound
  | conflict
  | errored
deriving DecidableEq, Repr

/-- The `VideoContentInput` the upload-complete handler passes to
`createVideoContent`: `status: 'processing'`, tags defaulted to `[]`,
file size from the body or the session, the public URL of the object
(modelled verbatim as the file name, which the component never interprets). -/
def completeUploadInput (req : CompleteUploadRequest) (s : UploadSessionRow) :
    VideoContentInput :=
  { userId := req.userId
    title := req.title
    description := some (req.description.getD (""))
    filename := req.fileName
    fileSize := req.fileSize.getD (s.fileSize.getD 0)
    videoUrl := req.fileName
    status := some .processing
    visibility := req.visibility
    tags := some (req.tags.getD []) }

/-- The session-verifying `POST /api/upload/complete` handler
(`src/routes/upload.ts`, Zod variant): look up the upload session by file
name and caller (404 when absent or expired), create the content record, then
delete the session.  The `409` branch of the source fires only when the
content insert throws an error containing `duplicate`, which the fresh-id
insert never does, so it is never reached on a re-finalize. -/
def completeUpload (st : DBState) (req : CompleteUploadRequest) (now : Nat) :
    CompleteUploadResult × DBState :=
  match getUploadSession st.sessions req.fileName req.userId now with
  | none => (.notFound, st)
  | some s =>
    match createVideoContent noFailOracle st (completeUploadInput req s) now with
    | (.ok vid, st1) =>
      (.created vid, { st1 with sessions := deleteUploadSession st1.sessions s.sessionId })
    | (.errored, st1) => (.errored, st1)

/-- The empty store (no rows, fresh id supplies at zero). -/
def emptyDB : DBState :=
  { contents := [], tags := [], videoTags := [], views := [], sessions := []
    tagCounter := 0, contentCounter := 0 }

/-- A list request with every optional member absent. -/
def emptyListOptions : VideoListOptions :=
  { page := none, limit := none, status := none, visibility := none
    tags := none, search := none, sortBy := none, sortOrder := none }

/-- A text matcher that matches everything (used at concrete inputs where the
search filter is absent and the matcher is irrelevant). -/
def tmAll : String → QRow → Bool := fun _ _ => true

/-- Concrete fixture: a public, ready row owned by `bob`. -/
def bobPublicRow : QRow :=
  { id := 1, userId := "bob", title := "B", description := none
    status := .ready, visibility := .pub, tags := [], duration := none
    fileSize := 1, createdAt := 0, updatedAt := 0 }

/-- Concrete fixture: a private row owned by `owner7`, id 7. -/
def ownerPrivateRow : QRow :=
  { id := 7, userId := "owner7", title := "P", description := none
    status := .ready, visibility := .priv, tags := [], duration := none
    fileSize := 1, createdAt := 0, updatedAt := 0 }

/-- Concrete fixture for the pagination example: 25 public rows with ids 1..25
whose creation times decrease with the id, so that the default
`created_at desc` order lists them as 1, 2, ..., 25. -/
def rows25 : List QRow :=
  (List.range 25).map fun i =>
    { id := i + 1, userId := "u", title := "T", description := none
      status := .ready, visibility := .pub, tags := [], duration := none
      fileSize := 1, createdAt := (100 : Int) - (i + 1 : Nat), updatedAt := 0 }

/-- The list request of the pagination example: `page = 2`, `limit = 10`. -/
def page2Options : VideoListOptions :=
  { page := some 2, limit := some 10, status := none, visibility := none
    tags := none, search := none, sortBy := none, sortOrder := none }

/-- Concrete fixture for the slug-collision behavior: the tag table already
holds a tag named `My Tag` with slug `my-tag`, and one content row exists. -/
def slugCollisionState : DBState :=
  { contents := [{ id := 0, userId := "creator", title := "Video", description := none
                   filename := "f.mp4", fileSize := 1, videoUrl := "v"
                   status := .ready, visibility := .priv, createdAt := 0, updatedAt := 0 }]
    tags := [{ id := 0, name := "My Tag", slug := "my-tag", color := "#6b7280"
               description := none, usageCount := 0 }]
    videoTags := [], views := [], sessions := []
    tagCounter := 1, contentCounter := 1 }

/-- The update request that supplies only the tag list `["my tag"]`. -/
def lowercaseTagUpdate : UpdateInput :=
  { title := none, description := none, status := none, visibility := none
    tags := some ["my tag"] }

/-- Concrete fixture: one open upload session for `f.mp4` owned by `u`,
expiring at time 100. -/
def oneSessionState : DBState :=
  { contents := [], tags := [], videoTags := [], views := []
    sessions := [{ sessionId := 0, userId := "u", filename := "f.mp4"
                   fileSize := some 5, mimeType := none, expiresAt := 100 }]
    tagCounter := 0, contentCounter := 0 }

/-- The upload-complete request matching `oneSessionState`. -/
def demoCompleteReq : CompleteUploadRequest :=
  { userId := "u", fileName := "f.mp4", title := "Demo", description := none
    visibility := none, tags := none, fileSize := none, mimeType := none }

/-- Concrete operation sequence realizing the spec scenario: create a record
with tags `["tutorial", "business"]`, update it to `["business"]`, then
delete it. -/
def tagLifecycleOps : List RepoOp :=
  [ .create noFailOracle
      { userId := "u", title := "T", description := none, filename := "f"
        fileSize := 1, videoUrl := "v", status := none, visibility := none
        tags := some ["tutorial", "business"] } 0
  , .update noFailOracle 0 "u"
      { title := none, description := none, status := none, visibility := none
        tags := some ["business"] } 1
  , .delete 0 "u" ]

/-- A search request with only the (empty) query. -/
def emptySearchOptions : SearchOptions :=
  { query := "", page := none, limit := none, visibility := none
    minDuration := none, maxDuration := none, tags := none }

/-- An update request supplying a new title and the tag list `["business"]`. -/
def titleAndTagUpdate : UpdateInput :=
  { title := some ("New"), description := none, status := none, visibility := none
    tags := some ["business"] }

/-- Membership is preserved by sorted insertion. -/
theorem mem_insertSorted {le : α → α → Bool} {x a : α} :
    ∀ {l : List α}, a ∈ insertSorted le x l ↔ a = x ∨ a ∈ l := by
  intro l
  induction l with
  | nil => simp [insertSorted]
  | cons y ys ih =>
    by_cases h : le x y
    · simp [insertSorted, h]
    · simp only [insertSorted, h, Bool.false_eq_true, if_false, List.mem_cons, ih]
      tauto

/-- Membership is preserved by the `ORDER BY` sort. -/
theorem mem_sortByLe {le : α → α → Bool} {a : α} :
    ∀ {l : List α}, a ∈ sortByLe le l ↔ a ∈ l := by
  intro l
  induction l with
  | nil => simp [sortByLe]
  | cons y ys ih =>
    simp only [sortByLe, List.foldr_cons, List.mem_cons]
    rw [mem_insertSorted]
    simp only [sortByLe] at ih
    rw [ih]

/-- Claim C10: every validated `page`/`limit` pair satisfies `page ≥ 1` and
`1 ≤ limit ≤ 100`; non-numeric or out-of-range raw inputs are clamped, not
rejected: `page` falls back to 1, `limit` falls back to 20, is capped at 100
and floored at 1. -/
theorem paginationSchema_clamps :
    ∀ (p l : String),
      1 ≤ pageTransform p ∧ 1 ≤ limitTransform l ∧ limitTransform l ≤ 100 ∧
      pageTransform ("abc") = 1 ∧ pageTransform ("0") = 1 ∧
      pageTransform ("-5") = 1 ∧ limitTransform ("") = 20 ∧
      limitTransform ("xyz") = 20 ∧ limitTransform ("500") = 100 ∧
      limitTransform ("0") = 20 := by
  intro p l
  refine ⟨le_max_left 1 _, le_min (by norm_num) (le_max_left 1 _), min_le_left 100 _,
    by decide, by decide, by decide, by decide, by decide, by decide, by decide⟩

/-- Claim C7: tag creation is idempotent and duplicate-tolerant — once a tag
with a given derived slug exists, creating any name with the same slug leaves
the tag table (and the whole store) unchanged, completing without error. -/
theorem createTag_idempotent :
    ∀ (st : DBState) (name name2 : String) (c c2 d d2 : Option String),
      slugify name2 = slugify name →
      createTag (createTag st name c d) name2 c2 d2 = createTag st name c d := by
  intro st name name2 c c2 d d2 h
  have key : ∀ (s : DBState), (s.tags.any fun t => decide (t.slug = slugify name2)) = true →
      createTag s name2 c2 d2 = s := by
    intro s hs
    simp only [createTag, hs, if_true]
  apply key
  rw [h]
  by_cases hex : (st.tags.any fun t => decide (t.slug = slugify name)) = true
  · have hst : createTag st name c d = st := by
      simp only [createTag, hex, if_true]
    rw [hst]
    exact hex
  · have hst : (createTag st name c d).tags
        = st.tags ++ [⟨st.tagCounter, name, slugify name, c.getD ("#6b7280"), d, 0⟩] := by
      simp [createTag, hex]
    rw [hst]
    simp

/-- Claim C7 witness: creating `My Tag` twice from the empty store equals
creating it once. -/
theorem createTag_idempotent_witness :
    createTag (createTag emptyDB ("My Tag") none none) ("My Tag") none none
      = createTag emptyDB ("My Tag") none none :=
  createTag_idempotent emptyDB ("My Tag") ("My Tag") none none none none rfl


/-- Claim C4: `getVideoContent` returns a record exactly when a row with the
requested id exists that is public or owned by the caller; in every other
case — row absent, or present but non-public with a non-owner or anonymous
caller — it returns `null`, the single not-found result, so an absent record
and a present-but-forbidden one are indistinguishable. -/
theorem getVideoContent_access :
    ∀ (rows : List QRow) (id : Nat) (userId : Option String),
      ((getVideoContent rows id userId).isSome ↔
        ∃ r ∈ rows, r.id = id ∧
          (r.visibility = VideoVisibility.pub ∨ userId = some r.userId)) ∧
      (∀ c, getVideoContent rows id userId = some c →
        c ∈ rows ∧ c.id = id ∧
          (c.visibility = VideoVisibility.pub ∨ userId = some c.userId)) := by
  intro rows id userId
  constructor
  · rw [getVideoContent, List.find?_isSome]
    rcases userId with _ | u
    · constructor
      · rintro ⟨r, hr, hp⟩
        simp only [Bool.and_eq_true, Bool.or_eq_true, decide_eq_true_eq] at hp
        exact ⟨r, hr, hp.1, by tauto⟩
      · rintro ⟨r, hr, hid, hvis⟩
        refine ⟨r, hr, ?_⟩
        simp only [Bool.and_eq_true, Bool.or_eq_true, decide_eq_true_eq]
        rcases hvis with h | h
        · exact ⟨hid, Or.inl h⟩
        · exact absurd h (by simp)
    · constructor
      · rintro ⟨r, hr, hp⟩
        simp only [Bool.and_eq_true, Bool.or_eq_true, decide_eq_true_eq] at hp
        rcases hp with ⟨hid, h | h⟩
        · exact ⟨r, hr, hid, Or.inl h⟩
        · exact ⟨r, hr, hid, Or.inr (by rw [h])⟩
      · rintro ⟨r, hr, hid, hvis⟩
        refine ⟨r, hr, ?_⟩
        simp only [Bool.and_eq_true, Bool.or_eq_true, decide_eq_true_eq]
        rcases hvis with h | h
        · exact ⟨hid, Or.inl h⟩
        · exact ⟨hid, Or.inr (by injection h with h2; rw [h2])⟩
  · intro c hc
    have hmem := List.mem_of_find?_eq_some hc
    have hp := List.find?_some hc
    refine ⟨hmem, ?_, ?_⟩ <;> rcases userId with _ | u <;>
      simp only [Bool.and_eq_true, Bool.or_eq_true, decide_eq_true_eq] at hp
    · exact hp.1
    · exact hp.1
    · rcases hp.2 with h | h
      · exact Or.inl h
      · exact absurd h (by simp)
    · rcases hp.2 with h | h
      · exact Or.inl h
      · exact Or.inr (by rw [h])

/-- Claim C4 witness: the owner retrieves their own private record. -/
theorem getVideoContent_access_witness :
    ownerPrivateRow ∈ [ownerPrivateRow] ∧ ownerPrivateRow.id = 7 ∧
      (ownerPrivateRow.visibility = VideoVisibility.pub ∨
        (some ("owner7") : Option String) = some ownerPrivateRow.userId) :=
  (getVideoContent_access [ownerPrivateRow] 7 (some ("owner7"))).2 ownerPrivateRow (by decide)

/-- Claim C8: view-recording failures are swallowed — a failing
`video_views` insert leaves the table unchanged and `trackVideoView` still
returns normally; the `GET /api/content/:id` response is independent of
whether view tracking fails, and a found record is always returned. -/
theorem trackVideoView_nonfatal :
    ∀ (insertFails : Bool) (rows : List QRow) (views : List VideoViewRow)
      (id : Nat) (userId : Option String) (v : VideoViewData),
      trackVideoView true views v = views ∧
      (getContentById insertFails rows views id userId).1
        = (getContentById false rows views id userId).1 ∧
      (∀ c, getVideoContent rows id userId = some c →
        (getContentById insertFails rows views id userId).1 = .ok c) := by
  intro insertFails rows views id userId v
  refine ⟨rfl, ?_, ?_⟩
  · rw [getContentById, getContentById]
    cases getVideoContent rows id userId <;> rfl
  · intro c hc
    rw [getContentById, hc]

/-- Claim C8 witness: with a failing view insert, fetching the public record
still succeeds and returns it. -/
theorem trackVideoView_nonfatal_witness :
    (getContentById true [bobPublicRow] [] 1 none).1 = .ok bobPublicRow :=
  (trackVideoView_nonfatal true [bobPublicRow] [] 1 none ⟨1, none⟩).2.2 bobPublicRow (by decide)

/-- Claim C9: with a tag named `My Tag` (slug `my-tag`) already present,
updating a record with the tag list `["my tag"]` — a different name with the
same derived slug — succeeds but produces an empty association set: the
slug-keyed insert is a conflict no-op and the follow-up
`SELECT id FROM tags WHERE name = ANY($1)` matches by exact name, so the
intended association is silently dropped (the tag table is also unchanged). -/
theorem slugCollision_drops_association :
    slugify ("my tag") = "my-tag" ∧ ("my tag" : String) ≠ "My Tag" ∧
    (updateVideoContent noFailOracle slugCollisionState 0 ("creator")
      lowercaseTagUpdate 1).1 = UpdResult.ok ∧
    ((updateVideoContent noFailOracle slugCollisionState 0 ("creator")
      lowercaseTagUpdate 1).2).videoTags = [] ∧
    ((updateVideoContent noFailOracle slugCollisionState 0 ("creator")
      lowercaseTagUpdate 1).2).tags = slugCollisionState.tags := by
  refine ⟨by decide, by decide, ?_, ?_, ?_⟩ <;> decide

/-- The access-control clause of the search `WHERE` clause factors out: a row
satisfies `matchesSearchFilters` exactly when it is visible to the caller and
satisfies the request predicate (text match plus optional filters). -/
theorem matchesSearchFilters_eq :
    ∀ (tm : String → QRow → Bool) (userId : Option String) (o : SearchOptions)
      (r : QRow),
      matchesSearchFilters tm userId o r
        = (visibleTo userId r && matchesSearchRequest tm o r) := by
  intro tm userId o r
  have hbe : ∀ (x y : Bool), (x = true ↔ y = true) → x = y := by decide
  apply hbe
  rcases userId with _ | u
  · simp only [matchesSearchFilters, matchesSearchRequest, visibleTo,
      Bool.and_eq_true, Bool.or_eq_true, Bool.false_eq_true, or_false]
    tauto
  · simp only [matchesSearchFilters, matchesSearchRequest, visibleTo,
      Bool.and_eq_true, Bool.or_eq_true]
    tauto

/-- Claim C3 (amended): visibility scoping.  (1) Every row returned by
`listVideoContent` is visible to the caller and (2) an authenticated list is
owner-scoped — every returned row belongs to the caller.  (3) Every row
returned by `searchVideoContent` is visible to the caller.  (4) The search
result set is exact: a row is matched by the search `WHERE` clause iff it is
in the store, visible to the caller, and satisfies the request predicate — no
filter combination can leak a row outside the visible set, and no visible
matching row is dropped.  (5) The returned search page is precisely a
sorted/offset/limited page of that matched set.  (The unamended "exactly"
direction fails for `listVideoContent`: see the counterexample below.) -/
theorem listSearch_visibility_sound :
    ∀ (tm : String → QRow → Bool) (rank : String → QRow → Int)
      (userId : Option String) (lo : VideoListOptions) (so : SearchOptions)
      (rows : List QRow) (r : QRow),
      (r ∈ (listVideoContent tm userId lo rows).items → visibleTo userId r = true) ∧
      (∀ u : String, r ∈ (listVideoContent tm (some u) lo rows).items → r.userId = u) ∧
      (r ∈ (searchVideoContent tm rank userId so rows).items → visibleTo userId r = true) ∧
      (r ∈ rows.filter (matchesSearchFilters tm userId so) ↔
        r ∈ rows ∧ visibleTo userId r = true ∧ matchesSearchRequest tm so r = true) ∧
      (searchVideoContent tm rank userId so rows).items
        = ((sortByLe (searchLe rank so.query)
            (rows.filter (matchesSearchFilters tm userId so))).drop
              (((so.page.getD 1) - 1) * (so.limit.getD 20))).take (so.limit.getD 20) := by
  intro tm rank userId lo so rows r
  refine ⟨?_, ?_, ?_, ?_, rfl⟩
  · intro hr
    have h1 : r ∈ rows.filter (matchesListFilters tm userId lo) := by
      have h2 := List.drop_subset _ _ (List.take_subset _ _ hr)
      exact mem_sortByLe.mp h2
    have hp := (List.mem_filter.mp h1).2
    rw [matchesListFilters.eq_def] at hp
    simp only [Bool.and_eq_true] at hp
    have huser := hp.1.1.1.1
    rcases userId with _ | u
    · simp only [visibleTo, Bool.or_eq_true]
      exact Or.inl huser
    · simp only [visibleTo, Bool.or_eq_true]
      exact Or.inr huser
  · intro u hr
    have h1 : r ∈ rows.filter (matchesListFilters tm (some u) lo) := by
      have h2 := List.drop_subset _ _ (List.take_subset _ _ hr)
      exact mem_sortByLe.mp h2
    have hp := (List.mem_filter.mp h1).2
    rw [matchesListFilters.eq_def] at hp
    simp only [Bool.and_eq_true] at hp
    have huser := hp.1.1.1.1
    exact of_decide_eq_true huser
  · intro hr
    have h1 : r ∈ rows.filter (matchesSearchFilters tm userId so) := by
      have h2 := List.drop_subset _ _ (List.take_subset _ _ hr)
      exact mem_sortByLe.mp h2
    have hp := (List.mem_filter.mp h1).2
    rw [matchesSearchFilters_eq] at hp
    exact ((Bool.and_eq_true _ _).mp hp).1
  · constructor
    · intro h1
      have hm := List.mem_filter.mp h1
      have hp := hm.2
      rw [matchesSearchFilters_eq] at hp
      have hsplit := (Bool.and_eq_true _ _).mp hp
      exact ⟨hm.1, hsplit.1, hsplit.2⟩
    · rintro ⟨hmem, hvis, hreq⟩
      refine List.mem_filter.mpr ⟨hmem, ?_⟩
      rw [matchesSearchFilters_eq]
      exact (Bool.and_eq_true _ _).mpr ⟨hvis, hreq⟩

/-- Claim C3 counterexample: a public row owned by `bob` is visible to the
authenticated caller `alice` and matches a filterless list request, yet
`listVideoContent` returns nothing to `alice` (the authenticated list is
scoped to `vc.user_id = $1` only); the same request without authentication
does return the row.  The returned set is therefore not exactly the visible
matching set. -/
theorem list_omits_visible_public_row :
    visibleTo (some ("alice")) bobPublicRow = true ∧
    (listVideoContent tmAll (some ("alice")) emptyListOptions [bobPublicRow]).items = [] ∧
    (listVideoContent tmAll none emptyListOptions [bobPublicRow]).items = [bobPublicRow] := by
  refine ⟨by decide, by decide, by decide⟩

/-- Claim C3 witness: an anonymous caller receives only visible rows, and
the public row is in the search result set exactly because it is visible and
matches the request. -/
theorem listSearch_visibility_sound_witness :
    visibleTo none bobPublicRow = true ∧
    (bobPublicRow ∈ [bobPublicRow] ∧ visibleTo none bobPublicRow = true ∧
      matchesSearchRequest tmAll emptySearchOptions bobPublicRow = true) :=
  ⟨(listSearch_visibility_sound tmAll (fun _ _ => 0) none emptyListOptions
      emptySearchOptions [bobPublicRow] bobPublicRow).1 (by decide),
    (listSearch_visibility_sound tmAll (fun _ _ => 0) none emptyListOptions
      emptySearchOptions [bobPublicRow] bobPublicRow).2.2.2.1.mp (by decide)⟩

/-- The natural-number formula `(t + l - 1) / l` computes `Math.ceil(t / l)`:
it agrees with the rational ceiling whenever `l ≥ 1`. -/
theorem ceilDiv_cast (t l : Nat) (hl : 1 ≤ l) :
    ((ceilDiv t l : Nat) : ℤ) = ⌈(t : ℚ) / (l : ℚ)⌉ := by
  have hl0 : 0 < l := hl
  have hmod := Nat.div_add_mod (t + l - 1) l
  have hm : (t + l - 1) % l < l := Nat.mod_lt _ hl0
  set q := (t + l - 1) / l with hqdef
  set m := (t + l - 1) % l with hmdef
  obtain ⟨k, hk⟩ : ∃ k, l * q = k := ⟨_, rfl⟩
  rw [hk] at hmod
  have hnat1 : t ≤ k := by omega
  have hnat2 : k < t + l := by omega
  have hlQ : (0 : ℚ) < (l : ℚ) := by exact_mod_cast hl0
  have hkq : (k : ℚ) = (q : ℚ) * (l : ℚ) := by
    rw [← hk]; push_cast; ring
  refine (Int.ceil_eq_iff.mpr ⟨?_, ?_⟩).symm
  · rw [lt_div_iff₀ hlQ]
    have h2 : ((k : ℚ)) - (l : ℚ) < (t : ℚ) := by
      have : (k : ℚ) < (t : ℚ) + (l : ℚ) := by exact_mod_cast hnat2
      linarith
    calc ((((q : ℕ) : ℤ) : ℚ) - 1) * (l : ℚ) = (q : ℚ) * l - l := by push_cast; ring
    _ = (k : ℚ) - l := by rw [hkq]
    _ < t := h2
  · rw [div_le_iff₀ hlQ]
    calc (t : ℚ) ≤ (k : ℚ) := by exact_mod_cast hnat1
    _ = (q : ℚ) * l := hkq
    _ = (((q : ℕ) : ℤ) : ℚ) * l := by push_cast; ring

/-- Claim C6: for every list request the page query skips exactly
`(page - 1) * limit` records of the sorted matching rows and returns at most
`limit` of them in the requested sort order, and the metadata satisfies
`totalPages = ⌈total / limit⌉` (rational ceiling, as `Math.ceil`),
`hasNext ↔ page * limit < total` and `hasPrev ↔ page > 1`. -/
theorem listVideoContent_pagination :
    ∀ (tm : String → QRow → Bool) (userId : Option String) (o : VideoListOptions)
      (rows : List QRow),
      1 ≤ o.limit.getD 20 →
      (listVideoContent tm userId o rows).page = o.page.getD 1 ∧
      (listVideoContent tm userId o rows).limit = o.limit.getD 20 ∧
      (listVideoContent tm userId o rows).total
        = (rows.filter (matchesListFilters tm userId o)).length ∧
      (listVideoContent tm userId o rows).items
        = ((sortByLe (rowLe (o.sortBy.getD .created_at) (o.sortOrder.getD .desc))
            (rows.filter (matchesListFilters tm userId o))).drop
              (((o.page.getD 1) - 1) * (o.limit.getD 20))).take (o.limit.getD 20) ∧
      (listVideoContent tm userId o rows).items.length ≤ o.limit.getD 20 ∧
      ((listVideoContent tm userId o rows).totalPages : ℤ)
        = ⌈(((listVideoContent tm userId o rows).total : ℚ) / (o.limit.getD 20 : ℚ))⌉ ∧
      ((listVideoContent tm userId o rows).hasNext = true ↔
        (o.page.getD 1) * (o.limit.getD 20)
          < (rows.filter (matchesListFilters tm userId o)).length) ∧
      ((listVideoContent tm userId o rows).hasPrev = true ↔ 1 < o.page.getD 1) := by
  intro tm userId o rows hl
  refine ⟨rfl, rfl, rfl, rfl, ?_, ?_, ?_, ?_⟩
  · exact List.length_take_le _ _
  · exact ceilDiv_cast _ _ hl
  · simp [listVideoContent]
  · simp [listVideoContent]

/-- Claim C6 witness: the spec example — `page = 2`, `limit = 10` against 25
matching records returns records 11 through 20 with `totalPages = 3`,
`hasNext = true`, `hasPrev = true`; the general theorem applies. -/
theorem listVideoContent_pagination_witness :
    1 ≤ page2Options.limit.getD 20 ∧
    (listVideoContent tmAll none page2Options rows25).items.map (fun r => r.id)
      = [11, 12, 13, 14, 15, 16, 17, 18, 19, 20] ∧
    (listVideoContent tmAll none page2Options rows25).total = 25 ∧
    (listVideoContent tmAll none page2Options rows25).totalPages = 3 ∧
    (listVideoContent tmAll none page2Options rows25).hasNext = true ∧
    (listVideoContent tmAll none page2Options rows25).hasPrev = true ∧
    ((listVideoContent tmAll none page2Options rows25).hasPrev = true ↔
      1 < page2Options.page.getD 1) :=
  ⟨by decide, by decide, by decide, by decide, by decide, by decide,
    (listVideoContent_pagination tmAll none page2Options rows25 (by decide)).2.2.2.2.2.2.2⟩

/-- A statement loop that completed without a thrown error computes the plain
fold of its per-element effect. -/
theorem foldlM_ite_ok {α β : Type} (p : α → Bool) (g : β → α → β) :
    ∀ (l : List α) (b0 r : β),
      l.foldlM (fun s x => if p x then (Except.error () : Except Unit β)
        else Except.ok (g s x)) b0 = Except.ok r →
      l.foldl g b0 = r := by
  intro l
  induction l with
  | nil =>
    intro b0 r h
    simp only [List.foldlM_nil, pure] at h
    cases h
    rfl
  | cons a l ih =>
    intro b0 r h
    rw [List.foldlM_cons] at h
    by_cases hp : p a
    · simp [hp, Bind.bind, Except.bind] at h
    · simp only [hp, Bool.false_eq_true, if_false, Bind.bind, Except.bind] at h
      rw [List.foldl_cons]
      exact ih _ _ h

/-- A statement loop with no failing statement returns the plain fold. -/
theorem foldlM_pure {α β : Type} (g : β → α → β) :
    ∀ (l : List α) (b0 : β),
      l.foldlM (fun s x => (Except.ok (g s x) : Except Unit β)) b0
        = Except.ok (l.foldl g b0) := by
  intro l
  induction l with
  | nil => intro b0; rfl
  | cons a l ih =>
    intro b0
    rw [List.foldlM_cons]
    simp only [Bind.bind, Except.bind]
    rw [List.foldl_cons]
    exact ih _

/-- If the tag-replacement transaction body succeeds under some oracle, its
result is the failure-free effect. -/
theorem updateVideoTagsE_ok {fo : FailOracle} {st : DBState} {vid : Nat}
    {names : List String} {st2 : DBState}
    (h : updateVideoTagsE fo st vid names = .ok st2) :
    updateVideoTags st vid names = st2 := by
  rw [updateVideoTagsE] at h
  by_cases h1 : fo.vtDeleteFail
  · simp [h1] at h
  · simp only [h1, Bool.false_eq_true, if_false] at h
    by_cases h2 : names.isEmpty
    · simp only [h2, if_true] at h
      cases h
      simp [updateVideoTags, h2]
    · simp only [h2, Bool.false_eq_true, if_false] at h
      cases hfold : names.foldlM
          (fun s n => if fo.ensureTagFailOn n then .error ()
            else Except.ok (createTagWithClient s n)) (deleteVideoTagsFor st vid) with
      | error e => rw [hfold] at h; cases h
      | ok stMid =>
        rw [hfold] at h
        have hpure := foldlM_ite_ok (fun n => fo.ensureTagFailOn n)
          (fun s n => createTagWithClient s n) names _ _ hfold
        by_cases h3 : fo.tagSelectFail
        · simp [h3] at h
        · simp only [h3, Bool.false_eq_true, if_false] at h
          have hins := foldlM_ite_ok (fun t : TagRow => fo.vtInsertFailOn t.id)
            (fun s t => insertVideoTagRow s vid t.id)
            (stMid.tags.filter (fun t => names.contains t.name)) _ _ h
          rw [updateVideoTags, if_neg (by simp [h2])]
          rw [hpure]
          exact hins

/-- Under the failure-free oracle the tag-replacement body always succeeds
with the failure-free effect. -/
theorem updateVideoTagsE_noFail (st : DBState) (vid : Nat) (names : List String) :
    updateVideoTagsE noFailOracle st vid names = .ok (updateVideoTags st vid names) := by
  rw [updateVideoTagsE, updateVideoTags]
  simp only [noFailOracle, Bool.false_eq_true, if_false]
  by_cases h2 : names.isEmpty
  · simp [h2]
  · simp only [h2, Bool.false_eq_true, if_false]
    rw [foldlM_pure (fun s n => createTagWithClient s n) names]
    exact foldlM_pure _ _ _

/-- The failure-free oracle reports no content-write failure. -/
theorem noFailOracle_contentWriteFail : noFailOracle.contentWriteFail = false := rfl

/-- The failure-free oracle reports no commit failure. -/
theorem noFailOracle_commitFail : noFailOracle.commitFail = false := rfl

/-- Tail of the update/create transaction bodies (optional tag replacement
followed by `COMMIT`): a success under some oracle is reproduced by the
failure-free oracle. -/
theorem updateTagsStep_ok {fo : FailOracle} {st1 : DBState} {id : Nat}
    {otags : Option (List String)} {st2 : DBState}
    (h : (match otags with
          | none => if fo.commitFail then Except.error UpdErr.dbError else Except.ok st1
          | some names =>
            match updateVideoTagsE fo st1 id names with
            | .error _ => Except.error UpdErr.dbError
            | .ok s => if fo.commitFail then Except.error UpdErr.dbError else Except.ok s)
        = Except.ok st2) :
    (match otags with
     | none => if noFailOracle.commitFail then Except.error UpdErr.dbError else Except.ok st1
     | some names =>
       match updateVideoTagsE noFailOracle st1 id names with
       | .error _ => Except.error UpdErr.dbError
       | .ok s => if noFailOracle.commitFail then Except.error UpdErr.dbError else Except.ok s)
      = Except.ok st2 := by
  cases otags with
  | none =>
    dsimp only at h ⊢
    by_cases hcf : fo.commitFail
    · simp [hcf] at h
    · simp only [hcf, Bool.false_eq_true, if_false] at h
      simpa only [noFailOracle_commitFail, Bool.false_eq_true, if_false] using h
  | some names =>
    dsimp only at h ⊢
    cases htags : updateVideoTagsE fo st1 id names with
    | error e =>
      rw [htags] at h
      simp at h
    | ok s =>
      rw [htags] at h
      dsimp only at h
      by_cases hcf : fo.commitFail
      · simp [hcf] at h
      · simp only [hcf, Bool.false_eq_true, if_false] at h
        rw [updateVideoTagsE_noFail, updateVideoTagsE_ok htags]
        simpa only [noFailOracle_commitFail, Bool.false_eq_true, if_false] using h

/-- Tail of the transaction bodies under the failure-free oracle: it always
commits the (optional) tag replacement. -/
theorem updateTagsStep_noFail (st1 : DBState) (id : Nat) (otags : Option (List String)) :
    (match otags with
     | none => if noFailOracle.commitFail then Except.error UpdErr.dbError else Except.ok st1
     | some names =>
       match updateVideoTagsE noFailOracle st1 id names with
       | .error _ => Except.error UpdErr.dbError
       | .ok s => if noFailOracle.commitFail then Except.error UpdErr.dbError else Except.ok s)
      = Except.ok (match otags with
          | none => st1
          | some names => updateVideoTags st1 id names) := by
  cases otags with
  | none => simp [noFailOracle_commitFail]
  | some names =>
    dsimp only
    rw [updateVideoTagsE_noFail]
    simp [noFailOracle_commitFail]

/-- If the update transaction body succeeds under some oracle, it succeeds
with the same final state under the failure-free oracle. -/
theorem updateVideoContentE_ok {fo : FailOracle} {st : DBState} {id : Nat}
    {userId : String} {u : UpdateInput} {now : Nat} {st2 : DBState}
    (h : updateVideoContentE fo st id userId u now = .ok st2) :
    updateVideoContentE noFailOracle st id userId u now = .ok st2 := by
  rw [updateVideoContentE] at h ⊢
  by_cases h1 : hasFieldUpdates u
  · simp only [h1, if_true] at h ⊢
    by_cases hcw : fo.contentWriteFail
    · simp [hcw] at h
    · simp only [hcw, Bool.false_eq_true, if_false] at h
      simp only [noFailOracle_contentWriteFail, Bool.false_eq_true, if_false]
      by_cases hany : st.contents.any (fun r => decide (r.id = id) && decide (r.userId = userId))
      · simp only [hany, if_true] at h ⊢
        exact updateTagsStep_ok h
      · simp only [hany, Bool.false_eq_true, if_false] at h
        cases h
  · simp only [h1, Bool.false_eq_true, if_false] at h ⊢
    exact updateTagsStep_ok h

/-- The failure-free run of `updateVideoContent` is the direct effect
`updateVideoContentPure`. -/
theorem updateVideoContent_noFail_eq_pure (st : DBState) (id : Nat) (userId : String)
    (u : UpdateInput) (now : Nat) :
    updateVideoContent noFailOracle st id userId u now
      = updateVideoContentPure st id userId u now := by
  rw [updateVideoContent, updateVideoContentPure]
  by_cases hempty : !hasFieldUpdates u && u.tags.isNone
  · simp [hempty]
  · simp only [hempty, Bool.false_eq_true, if_false]
    rw [updateVideoContentE]
    by_cases h1 : hasFieldUpdates u
    · simp only [h1, if_true, noFailOracle_contentWriteFail, Bool.false_eq_true, if_false]
      by_cases hany : st.contents.any (fun r => decide (r.id = id) && decide (r.userId = userId))
      · simp only [hany, if_true]
        rw [updateTagsStep_noFail]
        simp only [h1, hany, Bool.not_true, Bool.and_false, Bool.false_eq_true, if_false]
        cases u.tags <;> rfl
      · simp only [hany, Bool.false_eq_true, if_false]
        simp [h1, hany]
    · simp only [h1, Bool.false_eq_true, if_false]
      rw [updateTagsStep_noFail]
      simp only [h1, Bool.false_and, Bool.false_eq_true, if_false]
      cases u.tags <;> rfl

/-- Firing the delete-branch usage trigger once per removed row decrements
each tag by the number of removed rows referencing it. -/
theorem foldl_updateTagUsageOnDelete :
    ∀ (rows : List VideoTagRow) (ts : List TagRow),
      rows.foldl (fun a r => updateTagUsageOnDelete a r.tagId) ts
        = ts.map (fun t => { t with
            usageCount := t.usageCount
              - (rows.filter (fun r => decide (r.tagId = t.id))).length }) := by
  intro rows
  induction rows with
  | nil =>
    intro ts
    simp only [List.foldl_nil, List.filter_nil, List.length_nil, Nat.sub_zero]
    exact (List.map_id' ts).symm
  | cons r rows ih =>
    intro ts
    rw [List.foldl_cons, ih, updateTagUsageOnDelete, List.map_map]
    apply List.map_congr_left
    intro t _
    by_cases h : t.id = r.tagId
    · have hrt : (decide (r.tagId = t.id)) = true := by simp [h.symm]
      simp only [Function.comp, h, if_true, List.filter_cons, hrt, List.length_cons,
        decide_True]
      congr 1
      omega
    · have hrt : (decide (r.tagId = t.id)) = false := by
        simp
        exact fun hh => h hh.symm
      simp only [Function.comp, h, Bool.false_eq_true, if_false, List.filter_cons, hrt]

/-- Counting after a boolean partition: the rows satisfying `q` split into
those kept and those removed by `p`. -/
theorem length_filter_partition {α : Type} (p q : α → Bool) :
    ∀ (l : List α),
      (l.filter q).length
        = ((l.filter (fun x => !p x)).filter q).length
          + ((l.filter p).filter q).length := by
  intro l
  induction l with
  | nil => rfl
  | cons a l ih =>
    by_cases hp : p a <;> by_cases hq : q a <;>
      simp [List.filter_cons, hp, hq, ih] <;> omega

/-- Deleting the association rows of a video keeps every usage count equal to
its live association count: the per-row trigger decrements exactly match the
removed rows. -/
theorem tagConsistent_deleteVideoTagsFor {st : DBState} (h : tagConsistent st)
    (vid : Nat) : tagConsistent (deleteVideoTagsFor st vid) := by
  intro t ht
  have htags : (deleteVideoTagsFor st vid).tags
      = st.tags.map (fun t0 => { t0 with
          usageCount := t0.usageCount
            - ((st.videoTags.filter (fun r => decide (r.videoId = vid))).filter
                (fun r => decide (r.tagId = t0.id))).length }) := by
    rw [deleteVideoTagsFor]
    exact foldl_updateTagUsageOnDelete _ _
  rw [htags] at ht
  obtain ⟨t0, ht0, rfl⟩ := List.mem_map.mp ht
  have hc := h t0 ht0
  have hpart := length_filter_partition (fun r => decide (r.videoId = vid))
    (fun r => decide (r.tagId = t0.id)) st.videoTags
  show t0.usageCount - _ = liveCount (deleteVideoTagsFor st vid).videoTags t0.id
  have hvt : (deleteVideoTagsFor st vid).videoTags
      = st.videoTags.filter (fun r => !decide (r.videoId = vid)) := rfl
  rw [hvt]
  rw [liveCount] at hc ⊢
  omega

/-- Deleting association rows preserves well-formedness (tag ids and the id
supply are untouched; the association rows shrink). -/
theorem dbWF_deleteVideoTagsFor {st : DBState} (h : dbWF st) (vid : Nat) :
    dbWF (deleteVideoTagsFor st vid) := by
  constructor
  · intro t ht
    have htags : (deleteVideoTagsFor st vid).tags
        = st.tags.map (fun t0 => { t0 with
            usageCount := t0.usageCount
              - ((st.videoTags.filter (fun r => decide (r.videoId = vid))).filter
                  (fun r => decide (r.tagId = t0.id))).length }) := by
      rw [deleteVideoTagsFor]
      exact foldl_updateTagUsageOnDelete _ _
    rw [htags] at ht
    obtain ⟨t0, ht0, rfl⟩ := List.mem_map.mp ht
    exact h.1 t0 ht0
  · intro r hr
    have hvt : (deleteVideoTagsFor st vid).videoTags
        = st.videoTags.filter (fun r => !decide (r.videoId = vid)) := rfl
    rw [hvt] at hr
    exact h.2 r (List.mem_filter.mp hr).1

/-- Inserting one association row together with its trigger increment keeps
every usage count equal to its live count. -/
theorem tagConsistent_insertVideoTagRow {st : DBState} (h : tagConsistent st)
    (vid tid : Nat) : tagConsistent (insertVideoTagRow st vid tid) := by
  intro t ht
  have htags : (insertVideoTagRow st vid tid).tags
      = st.tags.map (fun t0 => if t0.id = tid
          then { t0 with usageCount := t0.usageCount + 1 } else t0) := rfl
  rw [htags] at ht
  obtain ⟨t0, ht0, rfl⟩ := List.mem_map.mp ht
  have hc := h t0 ht0
  have hvt : (insertVideoTagRow st vid tid).videoTags
      = st.videoTags ++ [⟨vid, tid⟩] := rfl
  rw [hvt]
  by_cases hid : t0.id = tid
  · rw [if_pos hid]
    have hone : ((st.videoTags ++ [(⟨vid, tid⟩ : VideoTagRow)]).filter
        (fun r => decide (r.tagId = t0.id))).length
        = (st.videoTags.filter (fun r => decide (r.tagId = t0.id))).length + 1 := by
      rw [List.filter_append, List.length_append]
      simp [hid]
    show t0.usageCount + 1 = liveCount (st.videoTags ++ [⟨vid, tid⟩]) t0.id
    rw [liveCount, hone]
    rw [liveCount] at hc
    omega
  · rw [if_neg hid]
    have hzero : (([(⟨vid, tid⟩ : VideoTagRow)]).filter
        (fun r => decide (r.tagId = t0.id))).length = 0 := by
      simp
      exact fun hh => hid hh.symm
    show t0.usageCount = liveCount (st.videoTags ++ [⟨vid, tid⟩]) t0.id
    rw [liveCount, List.filter_append, List.length_append, hzero]
    rw [liveCount] at hc
    omega

/-- Inserting an association row referencing an already-allocated tag id
preserves well-formedness. -/
theorem dbWF_insertVideoTagRow {st : DBState} (h : dbWF st) {vid tid : Nat}
    (htid : tid < st.tagCounter) : dbWF (insertVideoTagRow st vid tid) := by
  constructor
  · intro t ht
    obtain ⟨t0, ht0, rfl⟩ := List.mem_map.mp ht
    by_cases hid : t0.id = tid
    · rw [if_pos hid]
      exact h.1 t0 ht0
    · rw [if_neg hid]
      exact h.1 t0 ht0
  · intro r hr
    rcases List.mem_append.mp hr with h1 | h1
    · exact h.2 r h1
    · rcases List.mem_singleton.mp h1 with rfl
      exact htid

/-- The slug-keyed tag upsert preserves count consistency: a fresh tag starts
at count 0 and, by well-formedness, no association row references its new id. -/
theorem tagConsistent_createTagWithClient {st : DBState} (h : tagConsistent st)
    (hwf : dbWF st) (name : String) : tagConsistent (createTagWithClient st name) := by
  rw [createTagWithClient]
  by_cases hex : (st.tags.any fun t => decide (t.slug = slugify name)) = true
  · simp only [hex, if_true]
    exact h
  · simp only [hex, Bool.false_eq_true, if_false]
    intro t ht
    rcases List.mem_append.mp ht with h1 | h1
    · exact h t h1
    · rcases List.mem_singleton.mp h1 with rfl
      show 0 = liveCount st.videoTags st.tagCounter
      have : st.videoTags.filter (fun r => decide (r.tagId = st.tagCounter)) = [] := by
        rw [List.filter_eq_nil_iff]
        intro r hr
        simp
        exact Nat.ne_of_lt (hwf.2 r hr)
      rw [liveCount, this]
      rfl

/-- The slug-keyed tag upsert preserves well-formedness, does not shrink the
id supply, and leaves the association table untouched. -/
theorem dbWF_createTagWithClient {st : DBState} (hwf : dbWF st) (name : String) :
    dbWF (createTagWithClient st name) ∧
    st.tagCounter ≤ (createTagWithClient st name).tagCounter ∧
    (createTagWithClient st name).videoTags = st.videoTags := by
  rw [createTagWithClient]
  by_cases hex : (st.tags.any fun t => decide (t.slug = slugify name)) = true
  · simp only [hex, if_true]
    exact ⟨hwf, Nat.le_refl _, trivial⟩
  · simp only [hex, Bool.false_eq_true, if_false]
    refine ⟨⟨?_, ?_⟩, Nat.le_succ _, trivial⟩
    · intro t ht
      rcases List.mem_append.mp ht with h1 | h1
      · exact Nat.lt_succ_of_lt (hwf.1 t h1)
      · rcases List.mem_singleton.mp h1 with rfl
        exact Nat.lt_succ_self _
    · intro r hr
      exact Nat.lt_succ_of_lt (hwf.2 r hr)

/-- The ensure-tags loop preserves both invariants, does not shrink the id
supply, and leaves the association table untouched. -/
theorem ensureTags_foldl_pres :
    ∀ (names : List String) (st : DBState), tagConsistent st → dbWF st →
      tagConsistent (names.foldl createTagWithClient st) ∧
      dbWF (names.foldl createTagWithClient st) ∧
      st.tagCounter ≤ (names.foldl createTagWithClient st).tagCounter ∧
      (names.foldl createTagWithClient st).videoTags = st.videoTags := by
  intro names
  induction names with
  | nil => intro st h hwf; exact ⟨h, hwf, Nat.le_refl _, rfl⟩
  | cons n names ih =>
    intro st h hwf
    rw [List.foldl_cons]
    have h1 := tagConsistent_createTagWithClient h hwf n
    have h2 := dbWF_createTagWithClient hwf n
    have ihr := ih (createTagWithClient st n) h1 h2.1
    exact ⟨ihr.1, ihr.2.1, Nat.le_trans h2.2.1 ihr.2.2.1, by rw [ihr.2.2.2, h2.2.2]⟩

/-- The association-insert loop preserves both invariants when every inserted
tag id is already allocated; it leaves the id supply unchanged. -/
theorem insertRows_foldl_pres (vid : Nat) :
    ∀ (ts : List TagRow) (st : DBState), tagConsistent st → dbWF st →
      (∀ t ∈ ts, t.id < st.tagCounter) →
      tagConsistent (ts.foldl (fun s t => insertVideoTagRow s vid t.id) st) ∧
      dbWF (ts.foldl (fun s t => insertVideoTagRow s vid t.id) st) ∧
      (ts.foldl (fun s t => insertVideoTagRow s vid t.id) st).tagCounter
        = st.tagCounter := by
  intro ts
  induction ts with
  | nil => intro st h hwf _; exact ⟨h, hwf, rfl⟩
  | cons t ts ih =>
    intro st h hwf hts
    rw [List.foldl_cons]
    have h1 := tagConsistent_insertVideoTagRow h vid t.id
    have h2 := @dbWF_insertVideoTagRow st hwf vid t.id (hts t (List.mem_cons_self t ts))
    have hcnt : (insertVideoTagRow st vid t.id).tagCounter = st.tagCounter := rfl
    have ihr := ih (insertVideoTagRow st vid t.id) h1 h2
      (fun t2 ht2 => by rw [hcnt]; exact hts t2 (List.mem_cons_of_mem t ht2))
    exact ⟨ihr.1, ihr.2.1, by rw [ihr.2.2, hcnt]⟩

/-- `updateVideoTags` (the complete tag-replacement step: delete, ensure,
select, insert, with the usage triggers firing throughout) preserves count
consistency and well-formedness. -/
theorem updateVideoTags_pres {st : DBState} (h : tagConsistent st) (hwf : dbWF st)
    (vid : Nat) (names : List String) :
    tagConsistent (updateVideoTags st vid names) ∧
    dbWF (updateVideoTags st vid names) := by
  rw [updateVideoTags]
  have hd := tagConsistent_deleteVideoTagsFor h vid
  have hdwf := dbWF_deleteVideoTagsFor hwf vid
  by_cases hne : names.isEmpty
  · simp only [hne, if_true]
    exact ⟨hd, hdwf⟩
  · simp only [hne, Bool.false_eq_true, if_false]
    have he := ensureTags_foldl_pres names (deleteVideoTagsFor st vid) hd hdwf
    have hmatched : ∀ t ∈ (names.foldl createTagWithClient
        (deleteVideoTagsFor st vid)).tags.filter (fun t => names.contains t.name),
        t.id < (names.foldl createTagWithClient (deleteVideoTagsFor st vid)).tagCounter := by
      intro t ht
      exact he.2.1.1 t (List.mem_filter.mp ht).1
    have hi := insertRows_foldl_pres vid _ _ he.1 he.2.1 hmatched
    exact ⟨hi.1, hi.2.1⟩

/-- A successful create transaction preserves count consistency and
well-formedness, whatever statements the oracle failed (a success means none
on the taken path). -/
theorem createVideoContentE_pres {fo : FailOracle} {st : DBState}
    {inp : VideoContentInput} {now : Nat} {st2 : DBState}
    (h : createVideoContentE fo st inp now = .ok st2)
    (hc : tagConsistent st) (hwf : dbWF st) : tagConsistent st2 ∧ dbWF st2 := by
  rw [createVideoContentE] at h
  by_cases hcw : fo.contentWriteFail
  · simp [hcw] at h
  · simp only [hcw, Bool.false_eq_true, if_false] at h
    set st1 : DBState :=
      { st with
        contents := st.contents ++ [mkContentRow st.contentCounter inp now]
        contentCounter := st.contentCounter + 1 } with hst1def
    have hc1 : tagConsistent st1 := hc
    have hwf1 : dbWF st1 := hwf
    cases hti : inp.tags with
    | none =>
      rw [hti] at h
      dsimp only at h
      by_cases hcf : fo.commitFail
      · simp [hcf] at h
      · simp only [hcf, Bool.false_eq_true, if_false] at h
        injection h with h2
        rw [← h2]
        exact ⟨hc1, hwf1⟩
    | some names =>
      rw [hti] at h
      dsimp only at h
      by_cases hne : names.isEmpty
      · simp only [hne, if_true] at h
        by_cases hcf : fo.commitFail
        · simp [hcf] at h
        · simp only [hcf, Bool.false_eq_true, if_false] at h
          injection h with h2
          rw [← h2]
          exact ⟨hc1, hwf1⟩
      · simp only [hne, Bool.false_eq_true, if_false] at h
        cases htags : updateVideoTagsE fo st1 st.contentCounter names with
        | error e =>
          rw [htags] at h
          simp at h
        | ok sM =>
          rw [htags] at h
          dsimp only at h
          by_cases hcf : fo.commitFail
          · simp [hcf] at h
          · simp only [hcf, Bool.false_eq_true, if_false] at h
            injection h with h2
            have hEq := updateVideoTagsE_ok htags
            rw [← h2, ← hEq]
            exact updateVideoTags_pres hc1 hwf1 st.contentCounter names

/-- A successful update transaction preserves count consistency and
well-formedness. -/
theorem updateVideoContentE_pres {fo : FailOracle} {st : DBState} {id : Nat}
    {userId : String} {u : UpdateInput} {now : Nat} {st2 : DBState}
    (h : updateVideoContentE fo st id userId u now = .ok st2)
    (hc : tagConsistent st) (hwf : dbWF st) : tagConsistent st2 ∧ dbWF st2 := by
  rw [updateVideoContentE] at h
  by_cases h1 : hasFieldUpdates u
  · simp only [h1, if_true] at h
    by_cases hcw : fo.contentWriteFail
    · simp [hcw] at h
    · simp only [hcw, Bool.false_eq_true, if_false] at h
      by_cases hany : st.contents.any (fun r => decide (r.id = id) && decide (r.userId = userId))
      · simp only [hany, if_true] at h
        set st1 : DBState :=
          { st with
            contents := st.contents.map fun r =>
              if decide (r.id = id) && decide (r.userId = userId)
              then applyFieldUpdates r u now else r } with hst1def
        have hc1 : tagConsistent st1 := hc
        have hwf1 : dbWF st1 := hwf
        cases hti : u.tags with
        | none =>
          rw [hti] at h
          dsimp only at h
          by_cases hcf : fo.commitFail
          · simp [hcf] at h
          · simp only [hcf, Bool.false_eq_true, if_false] at h
            injection h with h2
            rw [← h2]
            exact ⟨hc1, hwf1⟩
        | some names =>
          rw [hti] at h
          dsimp only at h
          cases htags : updateVideoTagsE fo st1 id names with
          | error e =>
            rw [htags] at h
            simp at h
          | ok sM =>
            rw [htags] at h
            dsimp only at h
            by_cases hcf : fo.commitFail
            · simp [hcf] at h
            · simp only [hcf, Bool.false_eq_true, if_false] at h
              injection h with h2
              have hEq := updateVideoTagsE_ok htags
              rw [← h2, ← hEq]
              exact updateVideoTags_pres hc1 hwf1 id names
      · simp only [hany, Bool.false_eq_true, if_false] at h
        cases h
  · simp only [h1, Bool.false_eq_true, if_false] at h
    cases hti : u.tags with
    | none =>
      rw [hti] at h
      dsimp only at h
      by_cases hcf : fo.commitFail
      · simp [hcf] at h
      · simp only [hcf, Bool.false_eq_true, if_false] at h
        injection h with h2
        rw [← h2]
        exact ⟨hc, hwf⟩
    | some names =>
      rw [hti] at h
      dsimp only at h
      cases htags : updateVideoTagsE fo st id names with
      | error e =>
        rw [htags] at h
        simp at h
      | ok sM =>
        rw [htags] at h
        dsimp only at h
        by_cases hcf : fo.commitFail
        · simp [hcf] at h
        · simp only [hcf, Bool.false_eq_true, if_false] at h
          injection h with h2
          have hEq := updateVideoTagsE_ok htags
          rw [← h2, ← hEq]
          exact updateVideoTags_pres hc hwf id names

/-- Every Content Repository operation — create, update or delete, with any
injected failure — preserves count consistency and well-formedness. -/
theorem repoOp_pres (op : RepoOp) (st : DBState) (hc : tagConsistent st)
    (hwf : dbWF st) : tagConsistent (applyRepoOp st op) ∧ dbWF (applyRepoOp st op) := by
  cases op with
  | create fo inp now =>
    rw [applyRepoOp, createVideoContent]
    cases hE : createVideoContentE fo st inp now with
    | ok st2 =>
      dsimp only
      exact createVideoContentE_pres hE hc hwf
    | error e =>
      dsimp only
      exact ⟨hc, hwf⟩
  | update fo id userId u now =>
    rw [applyRepoOp, updateVideoContent]
    by_cases hempty : (!hasFieldUpdates u && u.tags.isNone) = true
    · simp only [hempty, if_true]
      exact ⟨hc, hwf⟩
    · simp only [hempty, Bool.false_eq_true, if_false]
      cases hE : updateVideoContentE fo st id userId u now with
      | ok st2 =>
        dsimp only
        exact updateVideoContentE_pres hE hc hwf
      | error e =>
        cases e <;> dsimp only <;> exact ⟨hc, hwf⟩
  | delete id userId =>
    rw [applyRepoOp, deleteVideoContent]
    by_cases hany : (st.contents.any fun r => decide (r.id = id) && decide (r.userId = userId)) = true
    · simp only [hany, if_true]
      exact ⟨tagConsistent_deleteVideoTagsFor hc id, dbWF_deleteVideoTagsFor hwf id⟩
    · simp only [hany, Bool.false_eq_true, if_false]
      exact ⟨hc, hwf⟩

/-- Claim C1: over every sequence of Content Repository operations (create,
update, delete, with arbitrary injected statement failures), every usage
count stays equal to the number of live associations referencing its tag —
the trigger adjustments are part of the same transaction as the association
change, so the invariant holds after each operation. -/
theorem tagUsage_equals_live_associations :
    ∀ (ops : List RepoOp) (st : DBState), tagConsistent st → dbWF st →
      tagConsistent (ops.foldl applyRepoOp st) ∧ dbWF (ops.foldl applyRepoOp st) := by
  intro ops
  induction ops with
  | nil =>
    intro st hc hwf
    exact ⟨hc, hwf⟩
  | cons op ops ih =>
    intro st hc hwf
    rw [List.foldl_cons]
    have hp := repoOp_pres op st hc hwf
    exact ih _ hp.1 hp.2

/-- Claim C5: `updateVideoContent` is atomic.  Under every injected failure
the final store is either exactly the pre-call store (rollback: on a thrown
error or a non-owned/absent row nothing is changed) or the full effect —
updated fields, replaced association set and adjusted usage counts together;
a success commits exactly the full effect, so the intermediate
record-updated/counts-stale state is never observable after the call. -/
theorem updateVideoContent_atomic :
    ∀ (fo : FailOracle) (st : DBState) (id : Nat) (userId : String)
      (u : UpdateInput) (now : Nat),
      ((updateVideoContent fo st id userId u now).2 = st ∨
        (updateVideoContent fo st id userId u now).2
          = (updateVideoContentPure st id userId u now).2) ∧
      ((updateVideoContent fo st id userId u now).1 = .errored →
        (updateVideoContent fo st id userId u now).2 = st) ∧
      ((updateVideoContent fo st id userId u now).1 = .notFound →
        (updateVideoContent fo st id userId u now).2 = st) ∧
      ((updateVideoContent fo st id userId u now).1 = .ok →
        (updateVideoContent fo st id userId u now).2
          = (updateVideoContentPure st id userId u now).2) := by
  intro fo st id userId u now
  rw [updateVideoContent]
  by_cases hempty : (!hasFieldUpdates u && u.tags.isNone) = true
  · simp only [hempty, if_true]
    have hp : (updateVideoContentPure st id userId u now).2 = st := by
      rw [updateVideoContentPure]
      simp only [hempty, if_true]
    exact ⟨Or.inl trivial, fun _ => trivial, fun _ => trivial, fun _ => hp.symm⟩
  · simp only [hempty, Bool.false_eq_true, if_false]
    cases hE : updateVideoContentE fo st id userId u now with
    | ok st2 =>
      have hnf : updateVideoContentE noFailOracle st id userId u now = .ok st2 :=
        updateVideoContentE_ok hE
      have hpure : (updateVideoContentPure st id userId u now).2 = st2 := by
        rw [← updateVideoContent_noFail_eq_pure, updateVideoContent]
        simp only [hempty, Bool.false_eq_true, if_false, hnf]
      dsimp only
      refine ⟨Or.inr hpure.symm, ?_, ?_, fun _ => hpure.symm⟩
      · intro hres
        cases hres
      · intro hres
        cases hres
    | error e =>
      cases e with
      | dbError =>
        dsimp only
        exact ⟨Or.inl rfl, fun _ => rfl, fun _ => rfl, fun hres => by cases hres⟩
      | rowMissing =>
        dsimp only
        exact ⟨Or.inl rfl, fun _ => rfl, fun _ => rfl, fun hres => by cases hres⟩

/-- Claim C5 witness: for the failure-free run on the slug-collision fixture
(title update plus tag replacement), the result is the full pure effect. -/
theorem updateVideoContent_atomic_witness :
    (updateVideoContent noFailOracle slugCollisionState 0 ("creator")
        titleAndTagUpdate 2).2
      = (updateVideoContentPure slugCollisionState 0 ("creator")
        titleAndTagUpdate 2).2 :=
  (updateVideoContent_atomic noFailOracle slugCollisionState 0 ("creator")
    titleAndTagUpdate 2).2.2.2 (by decide)

/-- Claim C1 witness: from the empty store, the spec scenario — create with
tags `["tutorial", "business"]`, update to `["business"]`, delete — keeps
every usage count equal to its live association count; the intermediate
counts are 1,1 after the create and 0,1 after the update. -/
theorem tagUsage_equals_live_associations_witness :
    tagConsistent (tagLifecycleOps.foldl applyRepoOp emptyDB) ∧
    ((tagLifecycleOps.take 1).foldl applyRepoOp emptyDB).tags.map
        (fun t => (t.name, t.usageCount)) = [("tutorial", 1), ("business", 1)] ∧
    ((tagLifecycleOps.take 2).foldl applyRepoOp emptyDB).tags.map
        (fun t => (t.name, t.usageCount)) = [("tutorial", 0), ("business", 1)] ∧
    (tagLifecycleOps.foldl applyRepoOp emptyDB).videoTags = [] := by
  have hc : tagConsistent emptyDB := by
    intro t ht
    cases ht
  have hwf : dbWF emptyDB := by
    constructor
    · intro t ht
      cases ht
    · intro r hr
      cases hr
  exact ⟨(tagUsage_equals_live_associations tagLifecycleOps emptyDB hc hwf).1,
    by decide, by decide, by decide⟩

/-- The tag-replacement step never touches the `upload_sessions` table. -/
theorem sessions_updateVideoTags (st : DBState) (vid : Nat) (names : List String) :
    (updateVideoTags st vid names).sessions = st.sessions := by
  rw [updateVideoTags]
  by_cases hne : names.isEmpty
  · simp only [hne, if_true]
    rfl
  · simp only [hne, Bool.false_eq_true, if_false]
    have h1 : ∀ (ts : List TagRow) (s : DBState),
        (ts.foldl (fun a t => insertVideoTagRow a vid t.id) s).sessions = s.sessions := by
      intro ts
      induction ts with
      | nil => intro s; rfl
      | cons t ts ih =>
        intro s
        rw [List.foldl_cons, ih]
        rfl
    have h2 : ∀ (ns : List String) (s : DBState),
        (ns.foldl createTagWithClient s).sessions = s.sessions := by
      intro ns
      induction ns with
      | nil => intro s; rfl
      | cons n ns ih =>
        intro s
        rw [List.foldl_cons, ih, createTagWithClient]
        split <;> rfl
    rw [h1, h2]
    rfl

/-- A successful create transaction never touches the `upload_sessions`
table. -/
theorem sessions_createVideoContentE {fo : FailOracle} {st : DBState}
    {inp : VideoContentInput} {now : Nat} {st2 : DBState}
    (h : createVideoContentE fo st inp now = .ok st2) : st2.sessions = st.sessions := by
  rw [createVideoContentE] at h
  by_cases hcw : fo.contentWriteFail
  · simp [hcw] at h
  · simp only [hcw, Bool.false_eq_true, if_false] at h
    set st1 : DBState :=
      { st with
        contents := st.contents ++ [mkContentRow st.contentCounter inp now]
        contentCounter := st.contentCounter + 1 } with hst1def
    cases hti : inp.tags with
    | none =>
      rw [hti] at h
      dsimp only at h
      by_cases hcf : fo.commitFail
      · simp [hcf] at h
      · simp only [hcf, Bool.false_eq_true, if_false] at h
        injection h with h2
        rw [← h2]
    | some names =>
      rw [hti] at h
      dsimp only at h
      by_cases hne : names.isEmpty
      · simp only [hne, if_true] at h
        by_cases hcf : fo.commitFail
        · simp [hcf] at h
        · simp only [hcf, Bool.false_eq_true, if_false] at h
          injection h with h2
          rw [← h2]
      · simp only [hne, Bool.false_eq_true, if_false] at h
        cases htags : updateVideoTagsE fo st1 st.contentCounter names with
        | error e =>
          rw [htags] at h
          simp at h
        | ok sM =>
          rw [htags] at h
          dsimp only at h
          by_cases hcf : fo.commitFail
          · simp [hcf] at h
          · simp only [hcf, Bool.false_eq_true, if_false] at h
            injection h with h2
            have hEq := updateVideoTagsE_ok htags
            rw [← h2, ← hEq, sessions_updateVideoTags]

/-- The create wrapper never touches the `upload_sessions` table. -/
theorem sessions_createVideoContent (fo : FailOracle) (st : DBState)
    (inp : VideoContentInput) (now : Nat) :
    (createVideoContent fo st inp now).2.sessions = st.sessions := by
  rw [createVideoContent]
  cases hE : createVideoContentE fo st inp now with
  | error e => rfl
  | ok st2 =>
    dsimp only
    exact sessions_createVideoContentE hE

/-- A list of length at most one has at most one member. -/
theorem mem_of_length_le_one {α : Type} {l : List α} (h : l.length ≤ 1) {a b : α}
    (ha : a ∈ l) (hb : b ∈ l) : a = b := by
  cases l with
  | nil => cases ha
  | cons x xs =>
    have hx : xs = [] := by
      rw [List.length_cons] at h
      exact List.eq_nil_of_length_eq_zero (by omega)
    subst hx
    rcases List.mem_singleton.mp ha with rfl
    rcases List.mem_singleton.mp hb with rfl
    rfl

/-- Claim C2 (amended): after a successful finalize, a second call for the
same file and caller does not create a second Content record — but it returns
`notFound` (404), the very result used for absent or expired sessions, and
never the distinct `conflict` result the spec promises.  The hypothesis says
the store holds at most one matching live session (sessions are created with
a unique per-upload filename). -/
theorem completeUpload_refinalize :
    ∀ (st : DBState) (req : CompleteUploadRequest) (now : Nat) (v : Nat) (st1 : DBState),
      (st.sessions.filter (fun s => decide (s.filename = req.fileName) &&
        decide (s.userId = req.userId) && decide (now < s.expiresAt))).length ≤ 1 →
      completeUpload st req now = (.created v, st1) →
      (completeUpload st1 req now).1 = CompleteUploadResult.notFound ∧
      (completeUpload st1 req now).2 = st1 := by
  intro st req now v st1 hlen hfirst
  rw [completeUpload] at hfirst
  cases hget : getUploadSession st.sessions req.fileName req.userId now with
  | none =>
    rw [hget] at hfirst
    cases hfirst
  | some s =>
    rw [hget] at hfirst
    dsimp only at hfirst
    cases hcr : createVideoContent noFailOracle st (completeUploadInput req s) now with
    | mk res stc =>
      rw [hcr] at hfirst
      cases res with
      | errored =>
        dsimp only at hfirst
        cases hfirst
      | ok vid =>
        dsimp only at hfirst
        injection hfirst with hres hstate
        have hsess : st1.sessions = deleteUploadSession st.sessions s.sessionId := by
          rw [← hstate]
          show (deleteUploadSession stc.sessions s.sessionId) = _
          have : stc.sessions = st.sessions := by
            have := sessions_createVideoContent noFailOracle st (completeUploadInput req s) now
            rw [hcr] at this
            exact this
          rw [this]
        have hsmem : s ∈ st.sessions := List.mem_of_find?_eq_some hget
        have hspred := List.find?_some hget
        have hnone : getUploadSession st1.sessions req.fileName req.userId now = none := by
          rw [getUploadSession, List.find?_eq_none]
          intro x hx hpx
          rw [hsess] at hx
          have hxmem := (List.mem_filter.mp hx).1
          have hxid := (List.mem_filter.mp hx).2
          have hxs : x = s := mem_of_length_le_one hlen
            (List.mem_filter.mpr ⟨hxmem, hpx⟩)
            (List.mem_filter.mpr ⟨hsmem, hspred⟩)
          rw [hxs] at hxid
          simp at hxid
        rw [completeUpload, hnone]
        exact ⟨rfl, rfl⟩

/-- Claim C2 counterexample: from a store with one open session, the first
finalize succeeds and creates the record; the second finalize on the same
session returns `notFound` — not the `conflict` the claim requires — and the
content table is unchanged. -/
theorem completeUpload_second_is_notFound :
    (completeUpload oneSessionState demoCompleteReq 0).1 = CompleteUploadResult.created 0 ∧
    (completeUpload oneSessionState demoCompleteReq 0).2.contents.length = 1 ∧
    (completeUpload (completeUpload oneSessionState demoCompleteReq 0).2
        demoCompleteReq 0).1 = CompleteUploadResult.notFound ∧
    (completeUpload (completeUpload oneSessionState demoCompleteReq 0).2
        demoCompleteReq 0).1 ≠ CompleteUploadResult.conflict ∧
    (completeUpload (completeUpload oneSessionState demoCompleteReq 0).2
        demoCompleteReq 0).2.contents.length = 1 := by
  refine ⟨by decide, by decide, by decide, by decide, by decide⟩

/-- Claim C2 witness: the amended theorem applied to the concrete one-session
store. -/
theorem completeUpload_refinalize_witness :
    (completeUpload (completeUpload oneSessionState demoCompleteReq 0).2
        demoCompleteReq 0).1 = CompleteUploadResult.notFound ∧
    (completeUpload (completeUpload oneSessionState demoCompleteReq 0).2
        demoCompleteReq 0).2 = (completeUpload oneSessionState demoCompleteReq 0).2 :=
  completeUpload_refinalize oneSessionState demoCompleteReq 0 0
    (completeUpload oneSessionState demoCompleteReq 0).2 (by decide) (by decide)
